import Mathlib

/-!
# NI-DAQ acquisition engine: `Source/NIDAQComponents.cpp`

A shallow embedding of the acquisition code of `NIDAQComponents.cpp`:

* the demultiplexing `for` loop of `NIDAQmx::run` (lines 407-431),
* the whole of `NIDAQmx::run` as a sequence of driver calls (lines 264-470),
* `GetTerminalNameWithDevPrefix` (lines 32-53),
* `NIDAQmx::getAIVoltageRanges` (lines 216-235) and the default selection of
  the constructor (lines 142-146).

Conventions.  The header `NIDAQComponents.h` is not part of the sources, so the
constants and types it declares are parameters of the model:
`MAX_ANALOG_CHANNELS`, the predicate `DAQmxFailed`, the two product category
codes.  Voltages are exact rationals (the narrowing of a `float64` to the
`float` of `aiSamples` is not modelled).  Buffers are functions from an index to
a value; only indices the code reads are ever applied.  The sample index
`ai_timestamp` is an unbounded integer.  The enable flags are shared with the
control thread: the model receives, for every loop iteration `i`, the value the
acquisition thread observes when it evaluates `aiChannelEnabled[channel]` and
`diChannelEnabled[channel]` in that iteration.
-/

namespace NIDAQ

/-! ## Data path: the demultiplexing loop -/

/-- One call `aiBuffer->addToBuffer(aiSamples, &ai_timestamp, &eventCode, 1)`:
the contents of the three arguments at the time of the call. -/
structure Frame where
  aiSamples : List ℚ
  ai_timestamp : Int
  eventCode : Nat
deriving DecidableEq

/-- What one iteration of the `while` loop works on: the two read buffers after
the reads, and the enable flags as observed in each iteration `i` of the `for`
loop (first argument) for each channel (second argument). -/
structure ChunkData where
  ai_data : Nat → ℚ
  di_data_32 : Nat → Nat
  di_data_8 : Nat → Nat
  aiChannelEnabled : Nat → Nat → Bool
  diChannelEnabled : Nat → Nat → Bool

/-- The variables the `for` loop of lines 410-431 reads and writes: the locals
`aiSamples`, `linesEnabled`, `count`, the member `ai_timestamp`, and the frames
handed to the sink so far (oldest first). -/
structure LoopState where
  aiSamples : List ℚ
  linesEnabled : Nat
  count : Nat
  ai_timestamp : Int
  sink : List Frame

/-- Body of the `for` loop (lines 412-429) for loop index `i`. -/
def demuxStep (MAX_ANALOG_CHANNELS : Nat) (isUSBDevice : Bool) (io : ChunkData)
    (st : LoopState) (i : Nat) : LoopState :=
  let channel := i % MAX_ANALOG_CHANNELS
  let aiSamples :=
    if io.aiChannelEnabled i channel then st.aiSamples.set channel (io.ai_data i)
    else st.aiSamples
  let linesEnabled :=
    if io.diChannelEnabled i channel then st.linesEnabled ||| (1 <<< channel)
    else st.linesEnabled
  if i % MAX_ANALOG_CHANNELS = 0 then
    let ai_timestamp := st.ai_timestamp + 1
    let eventCode :=
      if isUSBDevice then io.di_data_32 st.count &&& linesEnabled
      else io.di_data_8 st.count &&& linesEnabled
    { aiSamples := aiSamples
      linesEnabled := linesEnabled
      count := st.count + 1
      ai_timestamp := ai_timestamp
      sink := st.sink ++ [⟨aiSamples, ai_timestamp, eventCode⟩] }
  else
    { st with aiSamples := aiSamples, linesEnabled := linesEnabled }

/-- Lines 407-409: the locals as initialised at the top of the chunk;
`ai_timestamp` and the sink carry over from the previous chunk. -/
def chunkInit (MAX_ANALOG_CHANNELS : Nat) (ai_timestamp : Int) (sink : List Frame) :
    LoopState :=
  { aiSamples := List.replicate MAX_ANALOG_CHANNELS 0
    linesEnabled := 0
    count := 0
    ai_timestamp := ai_timestamp
    sink := sink }

/-- Lines 407-431: the demultiplexing of one chunk,
`for (int i = 0; i < arraySizeInSamps; i++)`. -/
def demuxChunk (MAX_ANALOG_CHANNELS : Nat) (isUSBDevice : Bool) (arraySizeInSamps : Nat)
    (io : ChunkData) (ai_timestamp : Int) (sink : List Frame) : LoopState :=
  (List.range arraySizeInSamps).foldl (demuxStep MAX_ANALOG_CHANNELS isUSBDevice io)
    (chunkInit MAX_ANALOG_CHANNELS ai_timestamp sink)

/-- Lines 353-357: the read chunk size. -/
def numSampsPerChan (isUSBDevice : Bool) : Nat :=
  if isUSBDevice then 100 else 1000

/-- Line 359: `arraySizeInSamps = ai.size() * numSampsPerChan`. -/
def arraySizeInSamps (aiSize : Nat) (isUSBDevice : Bool) : Nat :=
  aiSize * numSampsPerChan isUSBDevice

/-- Frames handed to the sink by one chunk started with an empty sink. -/
def chunkFrames (MAX_ANALOG_CHANNELS : Nat) (isUSBDevice : Bool) (arraySize : Nat)
    (io : ChunkData) (ai_timestamp : Int) : List Frame :=
  (demuxChunk MAX_ANALOG_CHANNELS isUSBDevice arraySize io ai_timestamp []).sink

/-- Bitmask with bit `c` set for every line `c < n` with `en c`. -/
def enabledMask (en : Nat → Bool) : Nat → Nat
  | 0 => 0
  | n + 1 => if en n then enabledMask en n ||| (1 <<< n) else enabledMask en n

/-! ## Control path: `NIDAQmx::run` as a sequence of driver calls -/

/-- The driver entry points `NIDAQmx::run` calls, with the task handle (or the
task name, or the channel index) passed.  `GetTerminalNameWithDevPrefix` is the
static helper of lines 32-53, seen from `run` as one checked call. -/
inductive DriverCall
  | CreateTask (taskName : String)
  | CreateAIVoltageChan (taskHandle : Nat) (i : Nat)
  | CfgSampClkTiming (taskHandle : Nat)
  | GetTerminalNameWithDevPrefix (taskHandle : Nat)
  | GetDevDIPorts
  | CreateDIChan (taskHandle : Nat)
  | StartTask (taskHandle : Nat)
  | ReadAnalogF64 (taskHandle : Nat)
  | ReadDigitalU32 (taskHandle : Nat)
  | ReadDigitalU8 (taskHandle : Nat)
  | StopTask (taskHandle : Nat)
  | ClearTask (taskHandle : Nat)
  | GetExtendedErrorInfo
deriving DecidableEq

/-- The three read entry points. -/
def DriverCall.isRead : DriverCall → Bool
  | .ReadAnalogF64 _ => true
  | .ReadDigitalU32 _ => true
  | .ReadDigitalU8 _ => true
  | _ => false

/-- The members and constants `run` starts from.  `MAX_ANALOG_CHANNELS` is
declared in the absent header; `aiSize` is `ai.size()`. -/
structure Engine where
  MAX_ANALOG_CHANNELS : Nat
  isUSBDevice : Bool
  aiSize : Nat
  ai_timestamp : Int

/-- Everything outside the program that one execution of `run` meets.

* `DAQmxFailed` is the predicate of the same name (absent header).
* `ret n` is the return code of the call that is issued when `n` calls have
  been issued before it.
* `newTaskAI`, `newTaskDI` are the handles a successful `DAQmxCreateTask`
  stores; a failed one leaves the handle variable as it was.
* `indeterminateDI` is the content of `taskHandleDI` when the `goto Error` of
  lines 281-311 jumps over its initialiser on line 319.
* `stopAfter` is the number of times `threadShouldExit()` answers false.
* `chunk k` is what the k-th iteration of the `while` loop reads. -/
structure Driver where
  DAQmxFailed : Int → Bool
  ret : Nat → Int
  newTaskAI : Nat
  newTaskDI : Nat
  indeterminateDI : Nat
  stopAfter : Nat
  chunk : Nat → ChunkData

/-- The variables of `run` that matter for its calls, and the calls issued so
far, oldest first.  A call carries `some r` when its return code `r` is checked
by `DAQmxErrChk` and `none` when the code discards the return value. -/
structure RunState where
  trace : List (DriverCall × Option Int)
  error : Int
  taskHandleAI : Nat
  taskHandleDI : Nat
  ai_timestamp : Int
  sink : List Frame

/-- Where control goes after a checked call: on to the next statement, or to the
label `Error:`. -/
inductive Flow
  | next (st : RunState)
  | gotoError (st : RunState)

/-- Sequencing of statements: a jump to `Error:` skips what follows. -/
def Flow.bind (f : Flow) (k : RunState → Flow) : Flow :=
  match f with
  | .next st => k st
  | .gotoError st => .gotoError st

/-- Modelled from the spec: the macro `DAQmxErrChk` is declared in the absent
header.  Per the spec any failing driver call leaves the normal path for the
teardown; with the variable `error` and the label `Error:` of the callers this
is: store the return code in `error` and jump to `Error:` when `DAQmxFailed`
holds of it. -/
def DAQmxErrChk (d : Driver) (c : DriverCall) (st : RunState) : Flow :=
  let r := d.ret st.trace.length
  let st1 := { st with trace := st.trace ++ [(c, some r)], error := r }
  if d.DAQmxFailed r then .gotoError st1 else .next st1

/-- A call whose return value is discarded. -/
def unchecked (c : DriverCall) (st : RunState) : RunState :=
  { st with trace := st.trace ++ [(c, none)] }

/-- Lines 286-295: one `DAQmxCreateAIVoltageChan` per element of `ai`. -/
def createAIVoltageChans (d : Driver) : List Nat → RunState → Flow
  | [], st => .next st
  | i :: rest, st =>
    (DAQmxErrChk d (.CreateAIVoltageChan st.taskHandleAI i) st).bind
      (createAIVoltageChans d rest)

/-- Lines 280-283: `DAQmxCreateTask(name, &taskHandleAI)` under `DAQmxErrChk`;
the driver stores the new handle when the call succeeds. -/
def createTaskAI (d : Driver) (taskName : String) (st : RunState) : Flow :=
  (DAQmxErrChk d (.CreateTask taskName) st).bind
    fun st1 => .next { st1 with taskHandleAI := d.newTaskAI }

/-- Lines 325-328: `DAQmxCreateTask(name, &taskHandleDI)` under `DAQmxErrChk`. -/
def createTaskDI (d : Driver) (taskName : String) (st : RunState) : Flow :=
  (DAQmxErrChk d (.CreateTask taskName) st).bind
    fun st1 => .next { st1 with taskHandleDI := d.newTaskDI }

/-- Name of the analog task (lines 280-283). -/
def aiTaskName (e : Engine) : String :=
  if e.isUSBDevice then "AITask_USB" else "AITask_PXI"

/-- Name of the digital task (lines 325-328). -/
def diTaskName (e : Engine) : String :=
  if e.isUSBDevice then "DITask_USB" else "DITask_PXI"

/-- Lines 275-311: configuration of the analog task and derivation of the
trigger name. -/
def configAnalog (e : Engine) (d : Driver) (st : RunState) : Flow :=
  (createTaskAI d (aiTaskName e) st).bind
  fun st1 =>
  (createAIVoltageChans d (List.range e.aiSize) st1).bind
  fun st2 =>
  (DAQmxErrChk d (.CfgSampClkTiming st2.taskHandleAI) st2).bind
  fun st3 =>
  DAQmxErrChk d (.GetTerminalNameWithDevPrefix st3.taskHandleAI) st3

/-- Lines 317-351: configuration of the digital task, and the two starts. -/
def configDigital (e : Engine) (d : Driver) (st : RunState) : Flow :=
  (createTaskDI d (diTaskName e) (unchecked .GetDevDIPorts { st with taskHandleDI := 0 })).bind
  fun st1 =>
  (DAQmxErrChk d (.CreateDIChan st1.taskHandleDI) st1).bind
  fun st2 =>
  (if e.isUSBDevice then Flow.next st2
   else DAQmxErrChk d (.CfgSampClkTiming st2.taskHandleDI) st2).bind
  fun st3 =>
  (DAQmxErrChk d (.StartTask st3.taskHandleDI) st3).bind
  fun st4 =>
  DAQmxErrChk d (.StartTask st4.taskHandleAI) st4

/-- Lines 362-435: the `while (!threadShouldExit())` loop.  The first argument
counts the iterations still to come before the stop request is seen, the second
is the number of the iteration. -/
def acquire (e : Engine) (d : Driver) : Nat → Nat → RunState → Flow
  | 0, _, st => .next st
  | n + 1, k, st =>
    (DAQmxErrChk d (.ReadAnalogF64 st.taskHandleAI) st).bind
    fun st1 =>
    (DAQmxErrChk d
      (if e.isUSBDevice then .ReadDigitalU32 st1.taskHandleDI
       else .ReadDigitalU8 st1.taskHandleDI) st1).bind
    fun st2 =>
    let ls := demuxChunk e.MAX_ANALOG_CHANNELS e.isUSBDevice
      (arraySizeInSamps e.aiSize e.isUSBDevice) (d.chunk k) st2.ai_timestamp st2.sink
    acquire e d n (k + 1) { st2 with ai_timestamp := ls.ai_timestamp, sink := ls.sink }

/-- State at the entry of `run`.  `taskHandleDI` is not initialised before
line 319. -/
def runInit (e : Engine) (d : Driver) : RunState :=
  { trace := []
    error := 0
    taskHandleAI := 0
    taskHandleDI := d.indeterminateDI
    ai_timestamp := e.ai_timestamp
    sink := [] }

/-- Lines 268-435: `run` up to the point where it leaves the loop or jumps to
`Error:`. -/
def runBody (e : Engine) (d : Driver) : Flow :=
  ((configAnalog e d (runInit e d)).bind (configDigital e d)).bind (acquire e d d.stopAfter 0)

/-- The "DAQmx Stop Code" for one handle: `DAQmxStopTask`, `DAQmxClearTask`. -/
def stopCode (taskHandle : Nat) (st : RunState) : RunState :=
  unchecked (.ClearTask taskHandle) (unchecked (.StopTask taskHandle) st)

/-- Lines 441-446: the exit after the loop. -/
def normalExit (st : RunState) : RunState :=
  stopCode st.taskHandleDI (stopCode st.taskHandleAI st)

/-- Lines 448-468: the exit through `Error:`. -/
def errorExit (d : Driver) (st : RunState) : RunState :=
  let st1 := if d.DAQmxFailed st.error then unchecked .GetExtendedErrorInfo st else st
  let st2 := if st1.taskHandleAI ≠ 0 then stopCode st1.taskHandleAI st1 else st1
  if st2.taskHandleDI ≠ 0 then stopCode st2.taskHandleDI st2 else st2

/-- Lines 264-470: `NIDAQmx::run`, the state when it returns. -/
def run (e : Engine) (d : Driver) : RunState :=
  match runBody e d with
  | .next st => normalExit st
  | .gotoError st => errorExit d st

/-- The calls of a trace, without their return codes. -/
def calls (st : RunState) : List DriverCall :=
  st.trace.map Prod.fst

/-- A trace entry is a failed call: its return code was checked and
`DAQmxFailed` holds of it. -/
def failedEntry (d : Driver) (x : DriverCall × Option Int) : Prop :=
  ∃ r, x.2 = some r ∧ d.DAQmxFailed r = true

/-- The two calls of the "DAQmx Stop Code". -/
def DriverCall.isStopOrClear : DriverCall → Bool
  | .StopTask _ => true
  | .ClearTask _ => true
  | _ => false

/-- The task `taskName` was created: the trace holds a `DAQmxCreateTask` for
it whose return code did not fail. -/
def created (d : Driver) (taskName : String) (st : RunState) : Prop :=
  ∃ r, (DriverCall.CreateTask taskName, some r) ∈ st.trace ∧ d.DAQmxFailed r = false

/-! ## `GetTerminalNameWithDevPrefix` -/

/-- One device of the task as the driver reports it: the name written by
`DAQmxGetNthTaskDevice`, the category written by `DAQmxGetDevProductCategory`,
and the return codes of the two queries. -/
structure TaskDevice where
  device : String
  productCategory : Int
  nthTaskDeviceRet : Int
  productCategoryRet : Int

/-- Lines 41-49: the `while (i <= numDevices)` loop over the devices not yet
visited; the second argument is the current value of `error`.  The result is the
returned `error` and the string written to `triggerName`, `none` when the
buffer is not written. -/
def scanTaskDevices (DAQmxFailed : Int → Bool) (CSeriesModule SCXIModule : Int)
    (terminalName : String) : List TaskDevice → Int → Int × Option String
  | [], error => (error, none)
  | dev :: rest, _ =>
    if DAQmxFailed dev.nthTaskDeviceRet then (dev.nthTaskDeviceRet, none)
    else if DAQmxFailed dev.productCategoryRet then (dev.productCategoryRet, none)
    else if dev.productCategory ≠ CSeriesModule ∧ dev.productCategory ≠ SCXIModule then
      (dev.productCategoryRet, some ("/" ++ dev.device ++ "/" ++ terminalName))
    else scanTaskDevices DAQmxFailed CSeriesModule SCXIModule terminalName rest
      dev.productCategoryRet

/-- Lines 32-53.  `numDevicesRet` is the return code of
`DAQmxGetTaskNumDevices`, which reports `devices.length`; `CSeriesModule` and
`SCXIModule` stand for `DAQmx_Val_CSeriesModule` and `DAQmx_Val_SCXIModule` of
the vendor header. -/
def GetTerminalNameWithDevPrefix (DAQmxFailed : Int → Bool) (CSeriesModule SCXIModule : Int)
    (numDevicesRet : Int) (devices : List TaskDevice) (terminalName : String) :
    Int × Option String :=
  if DAQmxFailed numDevicesRet then (numDevicesRet, none)
  else scanTaskDevices DAQmxFailed CSeriesModule SCXIModule terminalName devices numDevicesRet

/-- A device that has a trigger terminal: neither a C-series nor an SCXI
module. -/
def terminalBearing (CSeriesModule SCXIModule : Int) (dev : TaskDevice) : Bool :=
  decide (dev.productCategory ≠ CSeriesModule ∧ dev.productCategory ≠ SCXIModule)

/-- Every query about the devices of the task succeeds. -/
def queriesSucceed (DAQmxFailed : Int → Bool) (numDevicesRet : Int)
    (devices : List TaskDevice) : Prop :=
  DAQmxFailed numDevicesRet = false ∧
  ∀ dev ∈ devices, DAQmxFailed dev.nthTaskDeviceRet = false ∧
    DAQmxFailed dev.productCategoryRet = false

/-! ## Voltage ranges -/

/-- The `VRange` pair of the header: minimum and maximum voltage. -/
structure VRange where
  vmin : ℚ
  vmax : ℚ
deriving DecidableEq

/-- Width of a range. -/
def VRange.span (r : VRange) : ℚ :=
  r.vmax - r.vmin

/-- The C++ conversion `int(x)` of a floating value: truncation toward zero. -/
def cInt (x : ℚ) : Int :=
  Int.tdiv x.num x.den

/-- Lines 223-231: the loop `for (int i = 0; i < 512; i += 2)` from index `i` on
with `n` iterations left; the result is the ranges passed to `aiVRanges.add`,
in order. -/
def voltageRangesFrom (data : Nat → ℚ) : Nat → Nat → List VRange
  | 0, _ => []
  | n + 1, i =>
    let vmin := data i
    let vmax := data (i + 1)
    if cInt vmin = cInt vmax then []
    else ⟨vmin, vmax⟩ :: voltageRangesFrom data n (i + 2)

/-- Lines 216-235: `NIDAQmx::getAIVoltageRanges`; `data` is the buffer of 512
values after `DAQmxGetDevAIVoltageRngs`, the result is `aiVRanges` (empty before
the call). -/
def getAIVoltageRanges (data : Nat → ℚ) : List VRange :=
  voltageRangesFrom data 256 0

/-- The pairs before the first pair with `min = max`, as the spec words it,
from index `i` on with `n` pairs left. -/
def rangesBeforeTerminatorFrom (data : Nat → ℚ) : Nat → Nat → List VRange
  | 0, _ => []
  | n + 1, i =>
    if data i = data (i + 1) then []
    else ⟨data i, data (i + 1)⟩ :: rangesBeforeTerminatorFrom data n (i + 2)

/-- The list of ranges the spec describes for a buffer of 256 pairs. -/
def rangesBeforeTerminator (data : Nat → ℚ) : List VRange :=
  rangesBeforeTerminatorFrom data 256 0

/-- Line 146: `voltageRange = aiVRanges[aiVRanges.size() - 1]`.  The array
class answers an index out of range with a default-constructed element,
`dflt`. -/
def defaultVoltageRange (dflt : VRange) (aiVRanges : List VRange) : VRange :=
  aiVRanges.getLastD dflt

/-- Lines 107-146: the selected voltage range after the constructor, for the
buffer `data` the driver filled at connect time. -/
def constructorVoltageRange (dflt : VRange) (data : Nat → ℚ) : VRange :=
  defaultVoltageRange dflt (getAIVoltageRanges data)

/-- A buffer holding the listed values and zero after them. -/
def bufferOf (values : List ℚ) (i : Nat) : ℚ :=
  values.getD i 0

/-! ## Invariants used in the proofs -/

/-- The frames of `sink` carry the sample indices `t0 + 1`, `t0 + 2`, ... in order,
and `ts` is the index of the last of them (`t0` when there is none). -/
def Indexed (t0 ts : Int) (sink : List Frame) : Prop :=
  ts = t0 + sink.length ∧
  sink.map Frame.ai_timestamp = (List.range sink.length).map (fun (n : Nat) => t0 + ((n : Int) + 1))

/-- A flow satisfies `N` when control goes on and `E` when it jumps to `Error:`. -/
def Flow.Sat (N E : RunState → Prop) : Flow → Prop
  | .next st => N st
  | .gotoError st => E st

/-- The sink and the counter of a state of `run` are consecutive from `t0`. -/
def IndexedState (t0 : Int) (st : RunState) : Prop :=
  Indexed t0 st.ai_timestamp st.sink

/-- No stop or clear call has been issued. -/
def NoStop (st : RunState) : Prop :=
  ∀ x ∈ st.trace, x.1.isStopOrClear = false

/-- A task that was created has its handle in the handle variable. -/
def HandlesOK (e : Engine) (d : Driver) (st : RunState) : Prop :=
  (created d (aiTaskName e) st → st.taskHandleAI = d.newTaskAI) ∧
  (created d (diTaskName e) st → st.taskHandleDI = d.newTaskDI)

/-- No creation of the digital task has been attempted. -/
def NoDICreate (e : Engine) (st : RunState) : Prop :=
  ∀ r, (DriverCall.CreateTask (diTaskName e), r) ∉ st.trace

/-- No call of the trace failed. -/
def NoFail (d : Driver) (st : RunState) : Prop :=
  ∀ x ∈ st.trace, ¬ failedEntry d x

/-- The last call of the trace failed and no call before it did. -/
def LastFail (d : Driver) (st : RunState) : Prop :=
  ∃ init c r, st.trace = init ++ [(c, some r)] ∧ d.DAQmxFailed r = true ∧
    ∀ x ∈ init, ¬ failedEntry d x

/-- What holds of the trace and the handles while `run` configures and reads; `p1`
marks the part before line 319. -/
def Setup (e : Engine) (d : Driver) (p1 : Bool) (st : RunState) : Prop :=
  NoStop st ∧ HandlesOK e d st ∧ (p1 = true → NoDICreate e st)

/-- Invariant of `run` on the normal path. -/
def InvN (e : Engine) (d : Driver) (p1 : Bool) (st : RunState) : Prop :=
  Setup e d p1 st ∧ NoFail d st

/-- Invariant of `run` at the jump to `Error:`. -/
def InvE (e : Engine) (d : Driver) (st : RunState) : Prop :=
  Setup e d false st ∧ LastFail d st

/-- A call of the teardown: unchecked, no read, no stop or clear of a null
handle, no task creation. -/
def quiet (x : DriverCall × Option Int) : Prop :=
  x.2 = none ∧ x.1.isRead = false ∧ x.1 ≠ DriverCall.StopTask 0 ∧ x.1 ≠ DriverCall.ClearTask 0 ∧
    ∀ n, x.1 ≠ DriverCall.CreateTask n

/-! ## Concrete inputs -/

/-- The vendor macro `DAQmxFailed(error)`, `((error) < 0)`, used for the
concrete executions below. -/
def daqmxFailed (r : Int) : Bool :=
  decide (r < 0)

/-- The end-to-end scenario of the spec on a four-slot engine: analog channels 0
and 2 and digital lines 1 and 3 enabled throughout, raw digital word
`0b00001010` on every scan, analog value `10 * (k + 1) + (s + 1)` at slot `s` of
scan `k` for the first three scans. -/
def scenario : ChunkData where
  ai_data := bufferOf [11, 12, 13, 14, 21, 22, 23, 24, 31, 32, 33, 34]
  di_data_32 := fun _ => 0b00001010
  di_data_8 := fun _ => 0b00001010
  aiChannelEnabled := fun _ c => c == 0 || c == 2
  diChannelEnabled := fun _ c => c == 1 || c == 3

/-- The scenario with digital line 1 disabled by the control thread after the
first scan: the flag of line 1 reads true in iterations 0-3 and false from
iteration 4 on; line 3 stays enabled. -/
def lineDisabled : ChunkData where
  ai_data := fun _ => 0
  di_data_32 := fun _ => 0b00001010
  di_data_8 := fun _ => 0b00001010
  aiChannelEnabled := fun _ _ => false
  diChannelEnabled := fun i c => (c == 1 && decide (i < 4)) || c == 3

/-- Analog channel 0 disabled during scan 0 (iterations 0-3), enabled during
scan 1 (iterations 4-7), disabled again from scan 2 on; its values in the three
scans are 11, 21, 31. -/
def analogToggled : ChunkData where
  ai_data := bufferOf [11, 12, 13, 14, 21, 22, 23, 24, 31, 32, 33, 34]
  di_data_32 := fun _ => 0
  di_data_8 := fun _ => 0
  aiChannelEnabled := fun i c => c == 0 && decide (4 ≤ i) && decide (i < 8)
  diChannelEnabled := fun _ _ => false

/-- The scenario on an eight-slot engine with eight channels: analog channels 0
and 2 and digital lines 1 and 3 enabled throughout, raw word `0b00001010`. -/
def scenario8 : ChunkData where
  ai_data := bufferOf [11, 12, 13, 14, 15, 16, 17, 18, 21, 22, 23, 24, 25, 26, 27, 28,
    31, 32, 33, 34, 35, 36, 37, 38]
  di_data_32 := fun _ => 0b00001010
  di_data_8 := fun _ => 0b00001010
  aiChannelEnabled := fun _ c => c == 0 || c == 2
  diChannelEnabled := fun _ c => c == 1 || c == 3

/-- On eight slots: digital line 1 enabled during scan 0 (iterations 0-7) and
disabled from iteration 8 on, line 3 enabled throughout. -/
def lineDisabled8 : ChunkData where
  ai_data := fun _ => 0
  di_data_32 := fun _ => 0b00001010
  di_data_8 := fun _ => 0b00001010
  aiChannelEnabled := fun _ _ => false
  diChannelEnabled := fun i c => (c == 1 && decide (i < 8)) || c == 3

/-- On eight slots: analog channel 0 enabled during scan 1 only (iterations
8-15). -/
def analogToggled8 : ChunkData where
  ai_data := bufferOf [11, 12, 13, 14, 15, 16, 17, 18, 21, 22, 23, 24, 25, 26, 27, 28,
    31, 32, 33, 34, 35, 36, 37, 38]
  di_data_32 := fun _ => 0
  di_data_8 := fun _ => 0
  aiChannelEnabled := fun i c => c == 0 && decide (8 ≤ i) && decide (i < 16)
  diChannelEnabled := fun _ _ => false

/-- A USB engine with one analog channel and one slot, sample index 41 at the
start of the run. -/
def sampleEngine : Engine where
  MAX_ANALOG_CHANNELS := 1
  isUSBDevice := true
  aiSize := 1
  ai_timestamp := 41

/-- A driver whose 13th call (the digital read of the second loop iteration)
fails, every other call succeeding; the stop request would come after three
iterations. -/
def sampleDriver : Driver where
  DAQmxFailed := daqmxFailed
  ret := fun n => if n = 12 then -1 else 0
  newTaskAI := 7
  newTaskDI := 9
  indeterminateDI := 5
  stopAfter := 3
  chunk := fun _ => scenario

/-- A driver on which no call fails; the stop request comes after two
iterations. -/
def steadyDriver : Driver where
  DAQmxFailed := daqmxFailed
  ret := fun _ => 0
  newTaskAI := 7
  newTaskDI := 9
  indeterminateDI := 5
  stopAfter := 2
  chunk := fun _ => scenario

/-- A task whose devices are all modules: a C-series module and an SCXI module
(category codes 14659 and 14660 of the vendor header), every query
succeeding. -/
def moduleDevices : List TaskDevice :=
  [⟨"cDAQ1Mod1", 14659, 0, 0⟩, ⟨"SC1Mod1", 14660, 0, 0⟩]

/-- The buffer a device with the ranges ±0.2 V, ±1 V, ±5 V, ±10 V fills. -/
def smallRangeData : Nat → ℚ :=
  bufferOf [mkRat (-1) 5, mkRat 1 5, -1, 1, -5, 5, -10, 10]

/-- The buffer of a device that reports ±10 V before ±5 V. -/
def descendingData : Nat → ℚ :=
  bufferOf [-10, 10, -5, 5]

/-! ## Lemmas on the loops -/

theorem demuxStep_sink (M : Nat) (usb : Bool) (io : ChunkData) (st : LoopState) (i : Nat) :
    ∃ fs, (demuxStep M usb io st i).sink = st.sink ++ fs ∧
      fs.length = (if i % M = 0 then 1 else 0) ∧
      (demuxStep M usb io st i).ai_timestamp = st.ai_timestamp + fs.length ∧
      (∀ f ∈ fs, f.ai_timestamp = st.ai_timestamp + 1) := by
  unfold demuxStep
  by_cases h : i % M = 0
  · simp [h]
  · simp [h]

theorem foldl_demuxStep_sink_mono (M : Nat) (usb : Bool) (io : ChunkData) (l : List Nat)
    (st : LoopState) : st.sink <+: (l.foldl (demuxStep M usb io) st).sink := by
  induction l generalizing st with
  | nil => exact List.prefix_refl _
  | cons i rest ih =>
    obtain ⟨fs, hfs, -⟩ := demuxStep_sink M usb io st i
    refine List.IsPrefix.trans ?_ (ih (demuxStep M usb io st i))
    rw [hfs]
    exact List.prefix_append _ _

theorem demuxChunk_sink_mono (M : Nat) (usb : Bool) (io : ChunkData) (ts : Int) (sink : List Frame)
    {m n : Nat} (h : m ≤ n) :
    (demuxChunk M usb m io ts sink).sink <+: (demuxChunk M usb n io ts sink).sink := by
  obtain ⟨k, rfl⟩ := Nat.exists_eq_add_of_le h
  unfold demuxChunk
  rw [List.range_add, List.foldl_append]
  exact foldl_demuxStep_sink_mono _ _ _ _ _

theorem ceil_succ (M n : Nat) (hM : 0 < M) :
    (n + 1 + M - 1) / M = (n + M - 1) / M + (if n % M = 0 then 1 else 0) := by
  have h1 : n + 1 + M - 1 = (n + M - 1) + 1 := by omega
  rw [h1, Nat.succ_div]
  have h2 : n + M - 1 + 1 = n + M := by omega
  rw [h2]
  by_cases h : n % M = 0
  · have : M ∣ n + M := (Nat.dvd_add_self_right).2 (Nat.dvd_of_mod_eq_zero h)
    simp [h, this]
  · have : ¬ M ∣ n + M := fun hd => h (Nat.mod_eq_zero_of_dvd ((Nat.dvd_add_self_right).1 hd))
    simp [h, this]

theorem demuxChunk_length (M : Nat) (usb : Bool) (io : ChunkData) (ts : Int) (sink : List Frame)
    (hM : 0 < M) (n : Nat) :
    (demuxChunk M usb n io ts sink).sink.length = sink.length + (n + M - 1) / M ∧
    (demuxChunk M usb n io ts sink).count = (n + M - 1) / M := by
  induction n with
  | zero =>
    have : (M - 1) / M = 0 := Nat.div_eq_of_lt (by omega)
    simp [demuxChunk, chunkInit, this]
  | succ n ih =>
    have hstep : demuxChunk M usb (n + 1) io ts sink
        = demuxStep M usb io (demuxChunk M usb n io ts sink) n := by
      simp [demuxChunk, List.range_succ, List.foldl_append]
    rw [hstep, ceil_succ M n hM]
    unfold demuxStep
    by_cases h : n % M = 0
    · simp [h, ih.1, ih.2]; omega
    · simp [h, ih.1, ih.2]

theorem demuxStep_indexed (M : Nat) (usb : Bool) (io : ChunkData) (t0 : Int) (st : LoopState)
    (i : Nat) (h : Indexed t0 st.ai_timestamp st.sink) :
    Indexed t0 (demuxStep M usb io st i).ai_timestamp (demuxStep M usb io st i).sink := by
  obtain ⟨fs, hs, hl, ht, hf⟩ := demuxStep_sink M usb io st i
  obtain ⟨h1, h2⟩ := h
  rw [hs, ht]
  match fs, hl, hf with
  | [], _, _ => simpa [Indexed] using And.intro h1 h2
  | [f], _, hf =>
    have hf1 : f.ai_timestamp = st.ai_timestamp + 1 := hf f (by simp)
    constructor
    · simp [h1]; ring
    · simp [List.range_succ, h2, hf1, h1]
      ring
  | _ :: _ :: _, hl, _ => split at hl <;> simp at hl

theorem foldl_demuxStep_indexed (M : Nat) (usb : Bool) (io : ChunkData) (t0 : Int) (l : List Nat)
    (st : LoopState) (h : Indexed t0 st.ai_timestamp st.sink) :
    Indexed t0 (l.foldl (demuxStep M usb io) st).ai_timestamp
      (l.foldl (demuxStep M usb io) st).sink := by
  induction l generalizing st with
  | nil => exact h
  | cons i rest ih => exact ih _ (demuxStep_indexed M usb io t0 st i h)

theorem demuxChunk_indexed (M : Nat) (usb : Bool) (n : Nat) (io : ChunkData) (t0 ts : Int)
    (sink : List Frame) (h : Indexed t0 ts sink) :
    Indexed t0 (demuxChunk M usb n io ts sink).ai_timestamp (demuxChunk M usb n io ts sink).sink :=
  foldl_demuxStep_indexed M usb io t0 _ _ h

theorem sat_bind {N E N1 E1 : RunState → Prop} {f : Flow} {k : RunState → Flow}
    (hf : f.Sat N E) (hk : ∀ st, N st → (k st).Sat N1 E1) (hE : ∀ st, E st → E1 st) :
    (f.bind k).Sat N1 E1 := by
  cases f with
  | next st => exact hk st hf
  | gotoError st => exact hE st hf

theorem chk_indexed (d : Driver) (c : DriverCall) (t0 : Int) (st : RunState)
    (h : IndexedState t0 st) :
    (DAQmxErrChk d c st).Sat (IndexedState t0) (IndexedState t0) := by
  unfold DAQmxErrChk
  simp only
  split <;> exact h

theorem createTaskAI_indexed (d : Driver) (name : String) (t0 : Int) (st : RunState)
    (h : IndexedState t0 st) :
    (createTaskAI d name st).Sat (IndexedState t0) (IndexedState t0) :=
  sat_bind (chk_indexed d _ t0 st h) (fun _ h1 => h1) (fun _ h1 => h1)

theorem createTaskDI_indexed (d : Driver) (name : String) (t0 : Int) (st : RunState)
    (h : IndexedState t0 st) :
    (createTaskDI d name st).Sat (IndexedState t0) (IndexedState t0) :=
  sat_bind (chk_indexed d _ t0 st h) (fun _ h1 => h1) (fun _ h1 => h1)

theorem createAIVoltageChans_indexed (d : Driver) (t0 : Int) (l : List Nat) (st : RunState)
    (h : IndexedState t0 st) :
    (createAIVoltageChans d l st).Sat (IndexedState t0) (IndexedState t0) := by
  induction l generalizing st with
  | nil => exact h
  | cons i rest ih =>
    exact sat_bind (chk_indexed d _ t0 st h) (fun st1 h1 => ih st1 h1) (fun _ h1 => h1)

theorem configAnalog_indexed (e : Engine) (d : Driver) (t0 : Int) (st : RunState)
    (h : IndexedState t0 st) :
    (configAnalog e d st).Sat (IndexedState t0) (IndexedState t0) := by
  unfold configAnalog
  refine sat_bind (createTaskAI_indexed d _ t0 st h) (fun st1 h1 => ?_) (fun _ h1 => h1)
  refine sat_bind (createAIVoltageChans_indexed d t0 _ st1 h1) (fun st2 h2 => ?_) (fun _ h1 => h1)
  refine sat_bind (chk_indexed d _ t0 st2 h2) (fun st3 h3 => ?_) (fun _ h1 => h1)
  exact chk_indexed d _ t0 st3 h3

theorem configDigital_indexed (e : Engine) (d : Driver) (t0 : Int) (st : RunState)
    (h : IndexedState t0 st) :
    (configDigital e d st).Sat (IndexedState t0) (IndexedState t0) := by
  unfold configDigital
  refine sat_bind (createTaskDI_indexed d _ t0 _ h) (fun st1 h1 => ?_) (fun _ h1 => h1)
  refine sat_bind (chk_indexed d _ t0 st1 h1) (fun st2 h2 => ?_) (fun _ h1 => h1)
  have hclk : (if e.isUSBDevice then Flow.next st2
      else DAQmxErrChk d (.CfgSampClkTiming st2.taskHandleDI) st2).Sat
      (IndexedState t0) (IndexedState t0) := by
    split
    · exact h2
    · exact chk_indexed d _ t0 st2 h2
  refine sat_bind hclk (fun st3 h3 => ?_) (fun _ h1 => h1)
  refine sat_bind (chk_indexed d _ t0 st3 h3) (fun st4 h4 => ?_) (fun _ h1 => h1)
  exact chk_indexed d _ t0 st4 h4

theorem acquire_indexed (e : Engine) (d : Driver) (t0 : Int) (n k : Nat) (st : RunState)
    (h : IndexedState t0 st) :
    (acquire e d n k st).Sat (IndexedState t0) (IndexedState t0) := by
  induction n generalizing k st with
  | zero => exact h
  | succ n ih =>
    unfold acquire
    refine sat_bind (chk_indexed d _ t0 st h) (fun st1 h1 => ?_) (fun _ h1 => h1)
    refine sat_bind (chk_indexed d _ t0 st1 h1) (fun st2 h2 => ?_) (fun _ h1 => h1)
    exact ih _ _ (demuxChunk_indexed _ _ _ _ t0 _ _ h2)

theorem runBody_indexed (e : Engine) (d : Driver) :
    (runBody e d).Sat (IndexedState e.ai_timestamp) (IndexedState e.ai_timestamp) := by
  unfold runBody
  have h0 : IndexedState e.ai_timestamp (runInit e d) := by
    simp [IndexedState, Indexed, runInit]
  refine sat_bind (sat_bind (configAnalog_indexed e d _ _ h0)
    (fun st1 h1 => configDigital_indexed e d _ st1 h1) (fun _ h1 => h1))
    (fun st2 h2 => acquire_indexed e d _ _ _ st2 h2) (fun _ h1 => h1)

theorem run_indexed (e : Engine) (d : Driver) : IndexedState e.ai_timestamp (run e d) := by
  have h := runBody_indexed e d
  unfold run
  cases hb : runBody e d with
  | next st =>
    rw [hb] at h
    exact h
  | gotoError st =>
    rw [hb] at h
    simp only [errorExit]
    have h' : IndexedState e.ai_timestamp st := h
    split <;> split <;> split <;> exact h'

theorem aiTaskName_ne_diTaskName (e : Engine) : aiTaskName e ≠ diTaskName e := by
  unfold aiTaskName diTaskName
  cases e.isUSBDevice <;> decide

theorem setup_snoc (e : Engine) (d : Driver) (p1 : Bool) (st st1 : RunState) (c : DriverCall)
    (o : Option Int) (ht : st1.trace = st.trace ++ [(c, o)])
    (hA : st1.taskHandleAI = st.taskHandleAI) (hD : st1.taskHandleDI = st.taskHandleDI)
    (hc1 : c.isStopOrClear = false) (hc2 : ∀ n, c ≠ .CreateTask n)
    (h : Setup e d p1 st) : Setup e d p1 st1 := by
  obtain ⟨h1, ⟨h2, h3⟩, h4⟩ := h
  refine ⟨?_, ⟨?_, ?_⟩, ?_⟩
  · intro x hx
    rw [ht, List.mem_append, List.mem_singleton] at hx
    rcases hx with hx | rfl
    · exact h1 x hx
    · exact hc1
  · rintro ⟨r, hr, hf⟩
    rw [ht, List.mem_append, List.mem_singleton] at hr
    rcases hr with hr | hr
    · rw [hA]; exact h2 ⟨r, hr, hf⟩
    · exact absurd (congrArg Prod.fst hr).symm (hc2 _)
  · rintro ⟨r, hr, hf⟩
    rw [ht, List.mem_append, List.mem_singleton] at hr
    rcases hr with hr | hr
    · rw [hD]; exact h3 ⟨r, hr, hf⟩
    · exact absurd (congrArg Prod.fst hr).symm (hc2 _)
  · intro hp r hr
    rw [ht, List.mem_append, List.mem_singleton] at hr
    rcases hr with hr | hr
    · exact h4 hp r hr
    · exact absurd (congrArg Prod.fst hr).symm (hc2 _)

theorem setup_weaken (e : Engine) (d : Driver) (p1 : Bool) (st : RunState)
    (h : Setup e d p1 st) : Setup e d false st :=
  ⟨h.1, h.2.1, fun hp => absurd hp (by decide)⟩

theorem nofail_snoc (d : Driver) (st st1 : RunState) (c : DriverCall) (o : Option Int)
    (ht : st1.trace = st.trace ++ [(c, o)]) (ho : ∀ r, o = some r → d.DAQmxFailed r = false)
    (h : NoFail d st) : NoFail d st1 := by
  intro x hx
  rw [ht, List.mem_append, List.mem_singleton] at hx
  rcases hx with hx | rfl
  · exact h x hx
  · rintro ⟨r, hr, hf⟩
    have := ho r hr
    rw [this] at hf
    exact Bool.noConfusion hf

theorem chk_inv (e : Engine) (d : Driver) (p1 : Bool) (c : DriverCall) (st : RunState)
    (hc1 : c.isStopOrClear = false) (hc2 : ∀ n, c ≠ .CreateTask n) (h : InvN e d p1 st) :
    (DAQmxErrChk d c st).Sat (InvN e d p1) (InvE e d) := by
  unfold DAQmxErrChk
  simp only
  split
  · rename_i hf
    exact ⟨setup_weaken e d p1 _ (setup_snoc e d p1 st _ c _ rfl rfl rfl hc1 hc2 h.1),
      st.trace, c, _, rfl, hf, h.2⟩
  · rename_i hf
    refine ⟨setup_snoc e d p1 st _ c _ rfl rfl rfl hc1 hc2 h.1,
      nofail_snoc d st _ c _ rfl ?_ h.2⟩
    intro r hr
    cases hr
    simpa using hf

theorem createTaskAI_inv (e : Engine) (d : Driver) (p1 : Bool) (st : RunState)
    (h : InvN e d p1 st) :
    (createTaskAI d (aiTaskName e) st).Sat (InvN e d p1) (InvE e d) := by
  obtain ⟨⟨h1, ⟨h2, h3⟩, h4⟩, h5⟩ := h
  have hne := aiTaskName_ne_diTaskName e
  have hstop : ∀ x ∈ st.trace ++ [(DriverCall.CreateTask (aiTaskName e),
      some (d.ret st.trace.length))], x.1.isStopOrClear = false := by
    intro x hx
    rw [List.mem_append, List.mem_singleton] at hx
    rcases hx with hx | rfl
    · exact h1 x hx
    · rfl
  have hdi : ∀ r, (DriverCall.CreateTask (diTaskName e), r) ∈ st.trace ++
      [(DriverCall.CreateTask (aiTaskName e), some (d.ret st.trace.length))] →
      (DriverCall.CreateTask (diTaskName e), r) ∈ st.trace := by
    intro r hr
    rw [List.mem_append, List.mem_singleton] at hr
    rcases hr with hr | hr
    · exact hr
    · injection hr with hr1 _
      injection hr1 with hr2
      exact absurd hr2.symm hne
  unfold createTaskAI DAQmxErrChk
  simp only
  split
  · rename_i hf
    refine ⟨⟨hstop, ⟨?_, ?_⟩, fun hp => absurd hp (by decide)⟩, st.trace, _, _, rfl, hf, h5⟩
    · rintro ⟨r, hr, hfr⟩
      rw [List.mem_append, List.mem_singleton] at hr
      rcases hr with hr | hr
      · exact h2 ⟨r, hr, hfr⟩
      · injection hr with _ hr2
        injection hr2 with hr3
        rw [hr3, hf] at hfr
        exact Bool.noConfusion hfr
    · rintro ⟨r, hr, hfr⟩
      exact h3 ⟨r, hdi _ hr, hfr⟩
  · rename_i hf
    refine ⟨⟨hstop, ⟨fun _ => rfl, ?_⟩, fun hp r hr => h4 hp r (hdi r hr)⟩, ?_⟩
    · rintro ⟨r, hr, hfr⟩
      exact h3 ⟨r, hdi _ hr, hfr⟩
    · refine nofail_snoc d st _ _ _ rfl ?_ h5
      intro r hr
      cases hr
      simpa using hf

theorem createTaskDI_inv (e : Engine) (d : Driver) (st : RunState)
    (h : InvN e d false st) :
    (createTaskDI d (diTaskName e) st).Sat (InvN e d false) (InvE e d) := by
  obtain ⟨⟨h1, ⟨h2, h3⟩, -⟩, h5⟩ := h
  have hne := aiTaskName_ne_diTaskName e
  have hstop : ∀ x ∈ st.trace ++ [(DriverCall.CreateTask (diTaskName e),
      some (d.ret st.trace.length))], x.1.isStopOrClear = false := by
    intro x hx
    rw [List.mem_append, List.mem_singleton] at hx
    rcases hx with hx | rfl
    · exact h1 x hx
    · rfl
  have hai : ∀ r, (DriverCall.CreateTask (aiTaskName e), r) ∈ st.trace ++
      [(DriverCall.CreateTask (diTaskName e), some (d.ret st.trace.length))] →
      (DriverCall.CreateTask (aiTaskName e), r) ∈ st.trace := by
    intro r hr
    rw [List.mem_append, List.mem_singleton] at hr
    rcases hr with hr | hr
    · exact hr
    · injection hr with hr1 _
      injection hr1 with hr2
      exact absurd hr2 hne
  unfold createTaskDI DAQmxErrChk
  simp only
  split
  · rename_i hf
    refine ⟨⟨hstop, ⟨?_, ?_⟩, fun hp => absurd hp (by decide)⟩, st.trace, _, _, rfl, hf, h5⟩
    · rintro ⟨r, hr, hfr⟩
      exact h2 ⟨r, hai _ hr, hfr⟩
    · rintro ⟨r, hr, hfr⟩
      rw [List.mem_append, List.mem_singleton] at hr
      rcases hr with hr | hr
      · exact h3 ⟨r, hr, hfr⟩
      · injection hr with _ hr2
        injection hr2 with hr3
        rw [hr3, hf] at hfr
        exact Bool.noConfusion hfr
  · rename_i hf
    refine ⟨⟨hstop, ⟨?_, fun _ => rfl⟩, fun hp => absurd hp (by decide)⟩, ?_⟩
    · rintro ⟨r, hr, hfr⟩
      exact h2 ⟨r, hai _ hr, hfr⟩
    · refine nofail_snoc d st _ _ _ rfl ?_ h5
      intro r hr
      cases hr
      simpa using hf

theorem reset_inv (e : Engine) (d : Driver) (st : RunState) (h : InvN e d true st) :
    InvN e d false (unchecked .GetDevDIPorts { st with taskHandleDI := 0 }) := by
  obtain ⟨⟨h1, ⟨h2, -⟩, h4⟩, h5⟩ := h
  refine ⟨⟨?_, ⟨?_, ?_⟩, fun hp => absurd hp (by decide)⟩, ?_⟩
  · intro x hx
    simp only [unchecked, List.mem_append, List.mem_singleton] at hx
    rcases hx with hx | rfl
    · exact h1 x hx
    · rfl
  · rintro ⟨r, hr, hfr⟩
    simp only [unchecked, List.mem_append, List.mem_singleton] at hr
    rcases hr with hr | hr
    · exact h2 ⟨r, hr, hfr⟩
    · injection hr with hr1 _
      exact DriverCall.noConfusion hr1
  · rintro ⟨r, hr, hfr⟩
    simp only [unchecked, List.mem_append, List.mem_singleton] at hr
    rcases hr with hr | hr
    · exact absurd hr (h4 rfl _)
    · injection hr with hr1 _
      exact DriverCall.noConfusion hr1
  · exact nofail_snoc d st _ _ none rfl (fun r hr => Option.noConfusion hr) h5

theorem createAIVoltageChans_inv (e : Engine) (d : Driver) (p1 : Bool) (l : List Nat)
    (st : RunState) (h : InvN e d p1 st) :
    (createAIVoltageChans d l st).Sat (InvN e d p1) (InvE e d) := by
  induction l generalizing st with
  | nil => exact h
  | cons i rest ih =>
    exact sat_bind (chk_inv e d p1 _ st rfl (fun _ hc => DriverCall.noConfusion hc) h)
      (fun st1 h1 => ih st1 h1) (fun _ h1 => h1)

theorem configAnalog_inv (e : Engine) (d : Driver) (st : RunState) (h : InvN e d true st) :
    (configAnalog e d st).Sat (InvN e d true) (InvE e d) := by
  unfold configAnalog
  refine sat_bind (createTaskAI_inv e d true st h) (fun st1 h1 => ?_) (fun _ h1 => h1)
  refine sat_bind (createAIVoltageChans_inv e d true _ st1 h1) (fun st2 h2 => ?_)
    (fun _ h1 => h1)
  refine sat_bind (chk_inv e d true _ st2 rfl (fun _ hc => DriverCall.noConfusion hc) h2)
    (fun st3 h3 => ?_) (fun _ h1 => h1)
  exact chk_inv e d true _ st3 rfl (fun _ hc => DriverCall.noConfusion hc) h3

theorem configDigital_inv (e : Engine) (d : Driver) (st : RunState) (h : InvN e d true st) :
    (configDigital e d st).Sat (InvN e d false) (InvE e d) := by
  unfold configDigital
  refine sat_bind (createTaskDI_inv e d _ (reset_inv e d st h)) (fun st1 h1 => ?_)
    (fun _ h1 => h1)
  refine sat_bind (chk_inv e d false _ st1 rfl (fun _ hc => DriverCall.noConfusion hc) h1)
    (fun st2 h2 => ?_) (fun _ h1 => h1)
  have hclk : (if e.isUSBDevice then Flow.next st2
      else DAQmxErrChk d (.CfgSampClkTiming st2.taskHandleDI) st2).Sat
      (InvN e d false) (InvE e d) := by
    split
    · exact h2
    · exact chk_inv e d false _ st2 rfl (fun _ hc => DriverCall.noConfusion hc) h2
  refine sat_bind hclk (fun st3 h3 => ?_) (fun _ h1 => h1)
  refine sat_bind (chk_inv e d false _ st3 rfl (fun _ hc => DriverCall.noConfusion hc) h3)
    (fun st4 h4 => ?_) (fun _ h1 => h1)
  exact chk_inv e d false _ st4 rfl (fun _ hc => DriverCall.noConfusion hc) h4

theorem acquire_inv (e : Engine) (d : Driver) (n k : Nat) (st : RunState)
    (h : InvN e d false st) :
    (acquire e d n k st).Sat (InvN e d false) (InvE e d) := by
  induction n generalizing k st with
  | zero => exact h
  | succ n ih =>
    unfold acquire
    refine sat_bind (chk_inv e d false _ st rfl (fun _ hc => DriverCall.noConfusion hc) h)
      (fun st1 h1 => ?_) (fun _ h1 => h1)
    have hdig : (DAQmxErrChk d (if e.isUSBDevice then .ReadDigitalU32 st1.taskHandleDI
        else .ReadDigitalU8 st1.taskHandleDI) st1).Sat (InvN e d false) (InvE e d) := by
      refine chk_inv e d false _ st1 ?_ ?_ h1
      · split <;> rfl
      · intro m hc
        split at hc <;> exact DriverCall.noConfusion hc
    refine sat_bind hdig (fun st2 h2 => ?_) (fun _ h1 => h1)
    exact ih _ _ h2

theorem runBody_inv (e : Engine) (d : Driver) :
    (runBody e d).Sat (InvN e d false) (InvE e d) := by
  unfold runBody
  have h0 : InvN e d true (runInit e d) := by
    refine ⟨⟨?_, ⟨?_, ?_⟩, ?_⟩, ?_⟩
    · intro x hx; simp [runInit] at hx
    · rintro ⟨r, hr, -⟩; simp [runInit] at hr
    · rintro ⟨r, hr, -⟩; simp [runInit] at hr
    · intro _ r hr; simp [runInit] at hr
    · intro x hx; simp [runInit] at hx
  refine sat_bind (sat_bind (configAnalog_inv e d _ h0)
    (fun st1 h1 => configDigital_inv e d st1 h1) (fun _ h1 => h1))
    (fun st2 h2 => acquire_inv e d _ _ st2 h2) (fun _ h1 => h1)

theorem normalExit_trace (st : RunState) :
    (normalExit st).trace = st.trace ++
      [(.StopTask st.taskHandleAI, none), (.ClearTask st.taskHandleAI, none),
       (.StopTask st.taskHandleDI, none), (.ClearTask st.taskHandleDI, none)] := by
  simp [normalExit, stopCode, unchecked]

theorem errorExit_trace (d : Driver) (st : RunState) :
    ∃ td, (errorExit d st).trace = st.trace ++ td ∧ (∀ x ∈ td, quiet x) ∧
      (st.taskHandleAI ≠ 0 → [DriverCall.StopTask st.taskHandleAI,
        DriverCall.ClearTask st.taskHandleAI] <:+: td.map Prod.fst) ∧
      (st.taskHandleDI ≠ 0 → [DriverCall.StopTask st.taskHandleDI,
        DriverCall.ClearTask st.taskHandleDI] <:+: td.map Prod.fst) := by
  by_cases hf : d.DAQmxFailed st.error = true <;> by_cases hA : st.taskHandleAI = 0 <;>
    by_cases hD : st.taskHandleDI = 0
  all_goals
    refine ⟨(errorExit d st).trace.drop st.trace.length, ?_, ?_, ?_, ?_⟩
  all_goals simp [errorExit, stopCode, unchecked, hf, hA, hD, quiet, DriverCall.isRead]
  all_goals
    first
    | exact ⟨[_], [], rfl⟩
    | exact ⟨[_], [_, _], rfl⟩
    | exact ⟨[_, _, _], [], rfl⟩
    | exact ⟨[], [_, _], rfl⟩
    | exact ⟨[_, _], [], rfl⟩

theorem pairwise_of_nofail (d : Driver) (l : List (DriverCall × Option Int))
    (h : ∀ x ∈ l, ¬ failedEntry d x) :
    l.Pairwise (fun x y => failedEntry d x → y.1.isRead = false) :=
  List.pairwise_of_forall_mem_list (fun a ha _ _ hfa => absurd hfa (h a ha))

theorem pairwise_append_quiet (d : Driver) (l td : List (DriverCall × Option Int))
    (hl : l.Pairwise (fun x y => failedEntry d x → y.1.isRead = false))
    (htd : ∀ x ∈ td, quiet x) :
    (l ++ td).Pairwise (fun x y => failedEntry d x → y.1.isRead = false) := by
  rw [List.pairwise_append]
  refine ⟨hl, ?_, fun _ _ b hb _ => (htd b hb).2.1⟩
  exact List.pairwise_of_forall_mem_list (fun _ _ b hb _ => (htd b hb).2.1)

theorem pairwise_of_lastFail (d : Driver) (st : RunState) (h : LastFail d st) :
    st.trace.Pairwise (fun x y => failedEntry d x → y.1.isRead = false) := by
  obtain ⟨init, c, r, ht, -, hinit⟩ := h
  rw [ht, List.pairwise_append]
  exact ⟨pairwise_of_nofail d init hinit, List.pairwise_singleton _ _,
    fun a ha _ _ hfa => absurd hfa (hinit a ha)⟩

theorem created_of_append_quiet (d : Driver) (name : String) (st st1 : RunState)
    (td : List (DriverCall × Option Int)) (ht : st1.trace = st.trace ++ td)
    (htd : ∀ x ∈ td, quiet x) (h : created d name st1) : created d name st := by
  obtain ⟨r, hr, hf⟩ := h
  rw [ht, List.mem_append] at hr
  rcases hr with hr | hr
  · exact ⟨r, hr, hf⟩
  · exact absurd rfl ((htd _ hr).2.2.2.2 name)

theorem infix_calls_of_append (st1 : RunState) (pre td : List (DriverCall × Option Int))
    (l : List DriverCall) (ht : st1.trace = pre ++ td) (h : l <:+: td.map Prod.fst) :
    l <:+: calls st1 := by
  unfold calls
  rw [ht, List.map_append]
  exact List.IsInfix.trans h (List.suffix_append _ _).isInfix

/-! ## The demultiplexing loop on concrete chunks -/

theorem chunkFrames_mono (M : Nat) (usb : Bool) (io : ChunkData) (ts : Int) {m n : Nat}
    (h : m ≤ n) : chunkFrames M usb m io ts <+: chunkFrames M usb n io ts :=
  demuxChunk_sink_mono M usb io ts [] h

theorem chunkFrames_length (M : Nat) (usb : Bool) (io : ChunkData) (ts : Int) (hM : 0 < M)
    (n : Nat) : (chunkFrames M usb n io ts).length = (n + M - 1) / M := by
  have h := (demuxChunk_length M usb io ts [] hM n).1
  simpa [chunkFrames] using h

theorem chunkFrames_length_full_width (M : Nat) (usb : Bool) (io : ChunkData) (ts : Int)
    (hM : 0 < M) : (chunkFrames M usb (arraySizeInSamps M usb) io ts).length
      = numSampsPerChan usb := by
  rw [chunkFrames_length M usb io ts hM, arraySizeInSamps]
  have h1 : M * numSampsPerChan usb + M - 1 = (M - 1) + M * numSampsPerChan usb := by omega
  rw [h1, Nat.add_mul_div_left _ _ hM, Nat.div_eq_of_lt (by omega)]
  omega

/-- The first frame of every chunk, whatever the slot count: only slot 0 can
hold a value and only bit 0 can be set in the event word. -/
theorem chunkFrames_first (M : Nat) (usb : Bool) (io : ChunkData) (ts : Int) (n : Nat)
    (hn : 0 < n) :
    ∃ rest, chunkFrames M usb n io ts =
      ⟨if io.aiChannelEnabled 0 0 then (List.replicate M 0).set 0 (io.ai_data 0)
        else List.replicate M 0,
       ts + 1,
       (if usb then io.di_data_32 0 else io.di_data_8 0) &&&
        (if io.diChannelEnabled 0 0 then 1 else 0)⟩ :: rest := by
  have h1 : chunkFrames M usb 1 io ts =
      [⟨if io.aiChannelEnabled 0 0 then (List.replicate M 0).set 0 (io.ai_data 0)
        else List.replicate M 0,
       ts + 1,
       (if usb then io.di_data_32 0 else io.di_data_8 0) &&&
        (if io.diChannelEnabled 0 0 then 1 else 0)⟩] := by
    cases usb <;>
      simp [chunkFrames, demuxChunk, chunkInit, demuxStep, List.range_succ, Nat.zero_mod]
  obtain ⟨t, ht⟩ := chunkFrames_mono M usb io ts (Nat.succ_le_of_lt hn)
  rw [h1] at ht
  exact ⟨t, ht.symm⟩

/-- The frame of scan `k`, whatever the slot count and the flags: it is built
from the state of the loop before the scan (`k * M` iterations done) and from
slot 0 and line 0 of scan `k` only; the other slots and lines of scan `k` are
processed after the frame has been handed over. -/
theorem chunkFrames_scan (M : Nat) (usb : Bool) (io : ChunkData) (ts : Int) (k n : Nat)
    (hM : 0 < M) (hn : k * M < n) :
    (chunkFrames M usb n io ts)[k]? =
      some ⟨if io.aiChannelEnabled (k * M) 0 then
              (demuxChunk M usb (k * M) io ts []).aiSamples.set 0 (io.ai_data (k * M))
            else (demuxChunk M usb (k * M) io ts []).aiSamples,
            (demuxChunk M usb (k * M) io ts []).ai_timestamp + 1,
            (if usb then io.di_data_32 k else io.di_data_8 k) &&&
              (if io.diChannelEnabled (k * M) 0 then
                (demuxChunk M usb (k * M) io ts []).linesEnabled ||| 1
               else (demuxChunk M usb (k * M) io ts []).linesEnabled)⟩ := by
  have hlen := demuxChunk_length M usb io ts [] hM (k * M)
  have hk : (k * M + M - 1) / M = k := by
    have h1 : k * M + M - 1 = (M - 1) + M * k := by
      rw [Nat.mul_comm]; omega
    rw [h1, Nat.add_mul_div_left _ _ hM, Nat.div_eq_of_lt (by omega)]
    omega
  rw [hk] at hlen
  have hl : (demuxChunk M usb (k * M) io ts []).sink.length = k := by simpa using hlen.1
  have hstep : demuxChunk M usb (k * M + 1) io ts []
      = demuxStep M usb io (demuxChunk M usb (k * M) io ts []) (k * M) := by
    simp [demuxChunk, List.range_succ, List.foldl_append]
  obtain ⟨t, ht⟩ := chunkFrames_mono M usb io ts (Nat.succ_le_of_lt hn)
  rw [← ht]
  have hsink : chunkFrames M usb (k * M + 1) io ts =
      (demuxChunk M usb (k * M) io ts []).sink ++
      [⟨if io.aiChannelEnabled (k * M) 0 then
              (demuxChunk M usb (k * M) io ts []).aiSamples.set 0 (io.ai_data (k * M))
            else (demuxChunk M usb (k * M) io ts []).aiSamples,
            (demuxChunk M usb (k * M) io ts []).ai_timestamp + 1,
            (if usb then io.di_data_32 k else io.di_data_8 k) &&&
              (if io.diChannelEnabled (k * M) 0 then
                (demuxChunk M usb (k * M) io ts []).linesEnabled ||| 1
               else (demuxChunk M usb (k * M) io ts []).linesEnabled)⟩] := by
    unfold chunkFrames
    rw [hstep]
    unfold demuxStep
    cases usb <;> simp [Nat.mul_mod_left, hlen.2]
  rw [hsink, List.append_assoc, List.getElem?_append_right (Nat.le_of_eq hl)]
  simp [hl]

/-- C1 (code evaluated at the failing input): on the four-slot scenario with
analog channels 0 and 2 enabled, the frame of scan 0 holds 0 at slot 2 although
`ai_data[0*4+2]` is 13, and the frame of every later scan holds at slot 2 the
value of the scan before it (13 in the frame of scan 1, 23 in that of scan 2):
the frame is handed over when only slot 0 of its scan has been copied. -/
theorem demux_frame_lags_one_scan :
    scenario.aiChannelEnabled 2 2 = true ∧ scenario.ai_data (0 * 4 + 2) = 13 ∧
    [(⟨[11, 0, 0, 0], 1, 0⟩ : Frame), ⟨[21, 0, 13, 0], 2, 10⟩, ⟨[31, 0, 23, 0], 3, 10⟩]
      <+: chunkFrames 4 true (arraySizeInSamps 4 true) scenario 0 := by
  refine ⟨by decide, by decide, ?_⟩
  have h : chunkFrames 4 true 12 scenario 0
      = [⟨[11, 0, 0, 0], 1, 0⟩, ⟨[21, 0, 13, 0], 2, 10⟩, ⟨[31, 0, 23, 0], 3, 10⟩] := by decide
  rw [← h]
  exact chunkFrames_mono 4 true scenario 0 (by decide)

/-- C2 (code evaluated at the failing input): with digital lines 1 and 3 enabled
throughout (mask `0b1010`) and raw word `0b00001010` on every scan, the event
word of the first frame of the chunk is 0, not `0b1010`: when it is computed
only line 0 has been looked at. -/
theorem demux_first_event_word_drops_enabled_lines :
    enabledMask (scenario.diChannelEnabled 0) 4 = 0b1010 ∧ scenario.di_data_32 0 = 0b1010 ∧
    ∃ f rest, chunkFrames 4 true (arraySizeInSamps 4 true) scenario 0 = f :: rest ∧
      f.eventCode = 0 := by
  refine ⟨by decide, by decide, ?_⟩
  have h : chunkFrames 4 true 1 scenario 0 = [⟨[11, 0, 0, 0], 1, 0⟩] := by decide
  obtain ⟨t, ht⟩ := chunkFrames_mono 4 true scenario 0 (by decide : 1 ≤ arraySizeInSamps 4 true)
  rw [h] at ht
  exact ⟨_, t, ht.symm, rfl⟩

/-- C3 (code evaluated at the failing input): digital line 1 is disabled from
loop iteration 4 on, yet the event words of scans 1 and 2 are `0b1010`, bit 1
still set: `linesEnabled` is cleared once per chunk, not once per scan. -/
theorem demux_event_word_keeps_disabled_line :
    (∀ i, 4 ≤ i → lineDisabled.diChannelEnabled i 1 = false) ∧
    Nat.testBit 10 1 = true ∧
    [(⟨[0, 0, 0, 0], 1, 0⟩ : Frame), ⟨[0, 0, 0, 0], 2, 10⟩, ⟨[0, 0, 0, 0], 3, 10⟩]
      <+: chunkFrames 4 true (arraySizeInSamps 4 true) lineDisabled 0 := by
  refine ⟨?_, by decide, ?_⟩
  · intro i hi
    have : ¬ i < 4 := by omega
    simp [lineDisabled, this]
  · have h : chunkFrames 4 true 12 lineDisabled 0
        = [⟨[0, 0, 0, 0], 1, 0⟩, ⟨[0, 0, 0, 0], 2, 10⟩, ⟨[0, 0, 0, 0], 3, 10⟩] := by decide
    rw [← h]
    exact chunkFrames_mono 4 true lineDisabled 0 (by decide)

/-- C4 (code evaluated at the failing input): analog channel 0 is disabled in
scan 0, enabled in scan 1 and disabled from scan 2 on; slot 0 of the three
frames is 0, 21, 21: the value written in scan 1 is still in the frame of the
disabled scan 2, because `aiSamples` is zeroed once per chunk only. -/
theorem demux_disabled_slot_keeps_stale_value :
    (∀ i, 8 ≤ i → analogToggled.aiChannelEnabled i 0 = false) ∧
    [(⟨[0, 0, 0, 0], 1, 0⟩ : Frame), ⟨[21, 0, 0, 0], 2, 0⟩, ⟨[21, 0, 0, 0], 3, 0⟩]
      <+: chunkFrames 4 true (arraySizeInSamps 4 true) analogToggled 0 := by
  refine ⟨?_, ?_⟩
  · intro i hi
    have : ¬ i < 8 := by omega
    simp [analogToggled, this]
  · have h : chunkFrames 4 true 12 analogToggled 0
        = [⟨[0, 0, 0, 0], 1, 0⟩, ⟨[21, 0, 0, 0], 2, 0⟩, ⟨[21, 0, 0, 0], 3, 0⟩] := by decide
    rw [← h]
    exact chunkFrames_mono 4 true analogToggled 0 (by decide)

/-- The three scenarios on an engine of eight slots with eight channels: the
frames of the first three scans of a chunk of 100 scans show the same lag, the
same kept bit and the same stale value as on four slots. -/
theorem demux_eight_slots :
    [(⟨[11, 0, 0, 0, 0, 0, 0, 0], 1, 0⟩ : Frame), ⟨[21, 0, 13, 0, 0, 0, 0, 0], 2, 10⟩,
      ⟨[31, 0, 23, 0, 0, 0, 0, 0], 3, 10⟩]
      <+: chunkFrames 8 true (arraySizeInSamps 8 true) scenario8 0 ∧
    [(⟨[0, 0, 0, 0, 0, 0, 0, 0], 1, 0⟩ : Frame), ⟨[0, 0, 0, 0, 0, 0, 0, 0], 2, 10⟩,
      ⟨[0, 0, 0, 0, 0, 0, 0, 0], 3, 10⟩]
      <+: chunkFrames 8 true (arraySizeInSamps 8 true) lineDisabled8 0 ∧
    [(⟨[0, 0, 0, 0, 0, 0, 0, 0], 1, 0⟩ : Frame), ⟨[21, 0, 0, 0, 0, 0, 0, 0], 2, 0⟩,
      ⟨[21, 0, 0, 0, 0, 0, 0, 0], 3, 0⟩]
      <+: chunkFrames 8 true (arraySizeInSamps 8 true) analogToggled8 0 := by
  have h1 : chunkFrames 8 true 24 scenario8 0 =
      [⟨[11, 0, 0, 0, 0, 0, 0, 0], 1, 0⟩, ⟨[21, 0, 13, 0, 0, 0, 0, 0], 2, 10⟩,
        ⟨[31, 0, 23, 0, 0, 0, 0, 0], 3, 10⟩] := by decide
  have h2 : chunkFrames 8 true 24 lineDisabled8 0 =
      [⟨[0, 0, 0, 0, 0, 0, 0, 0], 1, 0⟩, ⟨[0, 0, 0, 0, 0, 0, 0, 0], 2, 10⟩,
        ⟨[0, 0, 0, 0, 0, 0, 0, 0], 3, 10⟩] := by decide
  have h3 : chunkFrames 8 true 24 analogToggled8 0 =
      [⟨[0, 0, 0, 0, 0, 0, 0, 0], 1, 0⟩, ⟨[21, 0, 0, 0, 0, 0, 0, 0], 2, 0⟩,
        ⟨[21, 0, 0, 0, 0, 0, 0, 0], 3, 0⟩] := by decide
  refine ⟨?_, ?_, ?_⟩
  · rw [← h1]; exact chunkFrames_mono 8 true scenario8 0 (by decide)
  · rw [← h2]; exact chunkFrames_mono 8 true lineDisabled8 0 (by decide)
  · rw [← h3]; exact chunkFrames_mono 8 true analogToggled8 0 (by decide)

/-- C5 (code evaluated at the failing input): a USB device with 4 analog
channels on an engine of 8 slots reads chunks of 100 scans (400 values) and
hands 50 frames to the sink, not 100: the loop produces a frame every
`MAX_ANALOG_CHANNELS` values, not every `ai.size()` values. -/
theorem demux_frame_count_short :
    numSampsPerChan true = 100 ∧
    (chunkFrames 8 true (arraySizeInSamps 4 true) scenario 0).length = 50 := by
  refine ⟨by decide, ?_⟩
  rw [chunkFrames_length 8 true scenario 0 (by decide)]
  decide

/-! ## The sample index over a run -/

/-- C6: over one run, whatever the driver does and however many chunks are read,
the frames handed to the sink carry, in order, the sample indices
`ai_timestamp + 1`, `ai_timestamp + 2`, ... where `ai_timestamp` is the value at
run start: the frame at position `n` (counted from 0) has index
`ai_timestamp + (n + 1)`. -/
theorem run_sample_index_consecutive (e : Engine) (d : Driver) :
    (run e d).sink.map Frame.ai_timestamp =
      (List.range (run e d).sink.length).map
        (fun (n : Nat) => e.ai_timestamp + ((n : Int) + 1)) :=
  (run_indexed e d).2

set_option maxRecDepth 100000 in
theorem run_steady_frames :
    (run sampleEngine steadyDriver).sink.length = 200 ∧
    ((run sampleEngine steadyDriver).sink.map Frame.ai_timestamp).head? = some 42 ∧
    ((run sampleEngine steadyDriver).sink.map Frame.ai_timestamp).getLast? = some 241 := by
  decide

/-! ## Teardown -/

theorem run_sample_calls :
    calls (run sampleEngine sampleDriver) =
      [.CreateTask "AITask_USB", .CreateAIVoltageChan 7 0, .CfgSampClkTiming 7,
       .GetTerminalNameWithDevPrefix 7, .GetDevDIPorts, .CreateTask "DITask_USB",
       .CreateDIChan 9, .StartTask 9, .StartTask 7,
       .ReadAnalogF64 7, .ReadDigitalU32 9, .ReadAnalogF64 7, .ReadDigitalU32 9,
       .GetExtendedErrorInfo, .StopTask 7, .ClearTask 7, .StopTask 9, .ClearTask 9] := by
  decide

/-- C7: in every execution of `run` (any return codes, any number of loop
iterations before the stop request), with non-null handles from the driver: a
task that was created receives `DAQmxStopTask` immediately followed by
`DAQmxClearTask` before `run` returns, no read is issued after a call that
failed, and on the path through `Error:` no stop or clear is issued with a null
handle. -/
theorem run_releases_tasks (e : Engine) (d : Driver)
    (hAI : d.newTaskAI ≠ 0) (hDI : d.newTaskDI ≠ 0) :
    (created d (aiTaskName e) (run e d) →
      [DriverCall.StopTask d.newTaskAI, DriverCall.ClearTask d.newTaskAI] <:+: calls (run e d)) ∧
    (created d (diTaskName e) (run e d) →
      [DriverCall.StopTask d.newTaskDI, DriverCall.ClearTask d.newTaskDI] <:+: calls (run e d)) ∧
    (run e d).trace.Pairwise (fun x y => failedEntry d x → y.1.isRead = false) ∧
    (∀ st, runBody e d = Flow.gotoError st →
      DriverCall.StopTask 0 ∉ calls (run e d) ∧ DriverCall.ClearTask 0 ∉ calls (run e d)) := by
  have hinv := runBody_inv e d
  unfold run
  cases hb : runBody e d with
  | next st =>
    rw [hb] at hinv
    obtain ⟨⟨-, ⟨hA, hD⟩, -⟩, hnf⟩ := (hinv : InvN e d false st)
    have htr := normalExit_trace st
    have hq : ∀ x ∈ [(DriverCall.StopTask st.taskHandleAI, (none : Option Int)),
        (.ClearTask st.taskHandleAI, none), (.StopTask st.taskHandleDI, none),
        (.ClearTask st.taskHandleDI, none)],
        x.2 = none ∧ x.1.isRead = false ∧ ∀ n, x.1 ≠ DriverCall.CreateTask n := by
      simp [DriverCall.isRead]
    have hcr : ∀ name, created d name (normalExit st) → created d name st := by
      rintro name ⟨r, hr, hf⟩
      rw [htr, List.mem_append] at hr
      rcases hr with hr | hr
      · exact ⟨r, hr, hf⟩
      · exact absurd rfl ((hq _ hr).2.2 name)
    refine ⟨fun hc => ?_, fun hc => ?_, ?_, fun st1 h1 => Flow.noConfusion h1⟩
    · refine infix_calls_of_append _ _ _ _ htr ?_
      rw [hA (hcr _ hc)]
      exact ⟨[], [_, _], rfl⟩
    · refine infix_calls_of_append _ _ _ _ htr ?_
      rw [hD (hcr _ hc)]
      exact ⟨[_, _], [], rfl⟩
    · show (normalExit st).trace.Pairwise _
      rw [htr, List.pairwise_append]
      refine ⟨pairwise_of_nofail d _ hnf, ?_, fun _ _ b hb _ => (hq b hb).2.1⟩
      exact List.pairwise_of_forall_mem_list (fun _ _ b hb _ => (hq b hb).2.1)
  | gotoError st =>
    rw [hb] at hinv
    obtain ⟨⟨hns, ⟨hA, hD⟩, -⟩, hlf⟩ := (hinv : InvE e d st)
    obtain ⟨td, htr, hq, htA, htD⟩ := errorExit_trace d st
    refine ⟨fun hc => ?_, fun hc => ?_, ?_, fun _ _ => ⟨?_, ?_⟩⟩
    · have h1 := hA (created_of_append_quiet d _ st _ td htr hq hc)
      refine infix_calls_of_append _ _ _ _ htr ?_
      rw [← h1]
      exact htA (by rw [h1]; exact hAI)
    · have h1 := hD (created_of_append_quiet d _ st _ td htr hq hc)
      refine infix_calls_of_append _ _ _ _ htr ?_
      rw [← h1]
      exact htD (by rw [h1]; exact hDI)
    · show (errorExit d st).trace.Pairwise _
      rw [htr]
      exact pairwise_append_quiet d _ td (pairwise_of_lastFail d st hlf) hq
    · show DriverCall.StopTask 0 ∉ calls (errorExit d st)
      unfold calls
      rw [htr]
      simp only [List.mem_map, List.mem_append, not_exists, not_and]
      rintro x (hx | hx) hx1
      · have := hns x hx
        rw [hx1] at this
        exact Bool.noConfusion this
      · exact (hq x hx).2.2.1 hx1
    · show DriverCall.ClearTask 0 ∉ calls (errorExit d st)
      unfold calls
      rw [htr]
      simp only [List.mem_map, List.mem_append, not_exists, not_and]
      rintro x (hx | hx) hx1
      · have := hns x hx
        rw [hx1] at this
        exact Bool.noConfusion this
      · exact (hq x hx).2.2.2.1 hx1

/-- Witness of C7 on a run whose second digital read fails: both tasks were
created and both are stopped and cleared. -/
theorem run_releases_tasks_witness :
    sampleDriver.newTaskAI ≠ 0 ∧ sampleDriver.newTaskDI ≠ 0 ∧
    [DriverCall.StopTask 7, DriverCall.ClearTask 7] <:+: calls (run sampleEngine sampleDriver) ∧
    [DriverCall.StopTask 9, DriverCall.ClearTask 9] <:+: calls (run sampleEngine sampleDriver) ∧
    (run sampleEngine sampleDriver).trace.Pairwise
      (fun x y => failedEntry sampleDriver x → y.1.isRead = false) :=
  ⟨by decide, by decide,
    (run_releases_tasks sampleEngine sampleDriver (by decide) (by decide)).1
      ⟨0, by decide, by decide⟩,
    (run_releases_tasks sampleEngine sampleDriver (by decide) (by decide)).2.1
      ⟨0, by decide, by decide⟩,
    (run_releases_tasks sampleEngine sampleDriver (by decide) (by decide)).2.2.1⟩

/-! ## `GetTerminalNameWithDevPrefix` -/

theorem scanTaskDevices_of_succeed (F : Int → Bool) (cs sx : Int) (term : String)
    (devices : List TaskDevice) (err : Int) (herr : F err = false)
    (h : ∀ dev ∈ devices, F dev.nthTaskDeviceRet = false ∧ F dev.productCategoryRet = false) :
    F (scanTaskDevices F cs sx term devices err).1 = false ∧
    (scanTaskDevices F cs sx term devices err).2 =
      (devices.find? (terminalBearing cs sx)).map (fun dev => "/" ++ dev.device ++ "/" ++ term)
    := by
  induction devices generalizing err with
  | nil => exact ⟨herr, rfl⟩
  | cons dev rest ih =>
    have hd := h dev (List.mem_cons_self _ _)
    have hr : ∀ x ∈ rest, F x.nthTaskDeviceRet = false ∧ F x.productCategoryRet = false :=
      fun x hx => h x (List.mem_cons_of_mem _ hx)
    unfold scanTaskDevices
    by_cases hb : dev.productCategory ≠ cs ∧ dev.productCategory ≠ sx
    · have htb : terminalBearing cs sx dev = true := by simp [terminalBearing, hb]
      simp [hd.1, hd.2, hb, List.find?, htb]
    · have htb : terminalBearing cs sx dev = false := by simp [terminalBearing, hb]
      have := ih dev.productCategoryRet hd.2 hr
      simp only [hd.1, hd.2, hb, List.find?, htb, if_false, Bool.false_eq_true]
      exact this

theorem getTerminalName_of_queriesSucceed (F : Int → Bool) (cs sx : Int) (term : String)
    (numDevicesRet : Int) (devices : List TaskDevice)
    (h : queriesSucceed F numDevicesRet devices) :
    F (GetTerminalNameWithDevPrefix F cs sx numDevicesRet devices term).1 = false ∧
    (GetTerminalNameWithDevPrefix F cs sx numDevicesRet devices term).2 =
      (devices.find? (terminalBearing cs sx)).map (fun dev => "/" ++ dev.device ++ "/" ++ term)
    := by
  unfold GetTerminalNameWithDevPrefix
  simp only [h.1, if_false, Bool.false_eq_true]
  exact scanTaskDevices_of_succeed F cs sx term devices numDevicesRet h.1 h.2

/-- C8 (code evaluated at the failing input): for a task whose devices are all
C-series or SCXI modules, and for a task without device, every query
succeeding, the function returns 0 (success) and leaves `triggerName`
unwritten; the claim has it return a failure. -/
theorem getTerminalName_success_without_name :
    GetTerminalNameWithDevPrefix daqmxFailed 14659 14660 0 moduleDevices "ai/SampleClock"
      = (0, none) ∧
    GetTerminalNameWithDevPrefix daqmxFailed 14659 14660 0 [] "ai/SampleClock" = (0, none) := by
  decide

theorem getTerminalName_first_terminal_bearing :
    GetTerminalNameWithDevPrefix daqmxFailed 14659 14660 0
      (moduleDevices ++ [⟨"PXI1Slot2", 14644, 0, 0⟩, ⟨"Dev1", 14644, 0, 0⟩]) "ai/SampleClock"
      = (0, some "/PXI1Slot2/ai/SampleClock") := by
  decide

/-! ## Voltage ranges -/

theorem voltageRangesFrom_initial_segment (data : Nat → ℚ) (n i : Nat) :
    voltageRangesFrom data n i <+: rangesBeforeTerminatorFrom data n i := by
  induction n generalizing i with
  | zero => exact List.prefix_refl _
  | succ n ih =>
    unfold voltageRangesFrom rangesBeforeTerminatorFrom
    simp only
    by_cases h1 : cInt (data i) = cInt (data (i + 1))
    · simp [h1]
    · have h2 : data i ≠ data (i + 1) := fun h => h1 (by rw [h])
      simp only [h1, h2, if_false]
      exact (List.prefix_cons_inj _).2 (ih (i + 2))

/-- C9 (code evaluated at the failing input): for a device reporting ±0.2 V,
±1 V, ±5 V, ±10 V the code adds no range at all, because `int(-0.2)` and
`int(0.2)` are both 0, whereas the four pairs all come before the first pair
with min = max. -/
theorem getAIVoltageRanges_stops_at_small_range :
    getAIVoltageRanges smallRangeData = [] ∧
    rangesBeforeTerminator smallRangeData =
      [⟨mkRat (-1) 5, mkRat 1 5⟩, ⟨-1, 1⟩, ⟨-5, 5⟩, ⟨-10, 10⟩] := by
  decide

/-- C10 (code evaluated at the failing input): for a device reporting ±10 V
before ±5 V the constructor selects ±5 V, the last range, whose span 10 is
smaller than the span 20 of ±10 V, a range of `aiVRanges`; and for a device
reporting ±0.2 V, ±1 V, ±5 V, ±10 V, `aiVRanges` is empty and the selection is
the default-constructed range whatever it is. -/
theorem constructor_selects_last_range :
    getAIVoltageRanges descendingData = [⟨-10, 10⟩, ⟨-5, 5⟩] ∧
    (∀ dflt, constructorVoltageRange dflt descendingData = ⟨-5, 5⟩) ∧
    (∃ r ∈ getAIVoltageRanges descendingData,
      (constructorVoltageRange ⟨0, 0⟩ descendingData).span < r.span) ∧
    (∀ dflt, constructorVoltageRange dflt smallRangeData = dflt) := by
  have h : getAIVoltageRanges descendingData = [⟨-10, 10⟩, ⟨-5, 5⟩] := by decide
  have h0 : getAIVoltageRanges smallRangeData = [] := by decide
  have hsel : ∀ dflt, constructorVoltageRange dflt descendingData = ⟨-5, 5⟩ := by
    intro dflt
    unfold constructorVoltageRange
    rw [h]
    rfl
  refine ⟨h, hsel, ⟨⟨-10, 10⟩, by rw [h]; simp, ?_⟩, ?_⟩
  · rw [hsel]
    norm_num [VRange.span]
  · intro dflt
    unfold constructorVoltageRange
    rw [h0]
    rfl

end NIDAQ
